import Mathlib

/-!
Verification of the changefeed distribution logic in
`pkg/ccl/changefeedccl/changefeed_dist.go`.

The Go source is shallowly embedded: pure planning code becomes Lean
functions, fallible code returns `Except`, and the slice-copy semantics of
`changefeedResultWriter.AddRow` is modelled with an explicit heap of slice
cells.  Keys of `roachpb.Span` are modelled as naturals (the code only
compares and groups them); timestamps carry the wall/logical pair of
`hlc.Timestamp`.
-/

namespace ChangefeedDist

/-- Modelled from the spec: `hlc.Timestamp` (package `util/hlc`, outside the
given sources) is a (wall time, logical) pair in logical time. -/
structure Timestamp where
  wall : Int
  logical : Int
deriving DecidableEq, Repr

/-- Modelled from the spec: `hlc.Timestamp.IsEmpty` holds for the zero
timestamp. -/
def Timestamp.isEmpty (t : Timestamp) : Bool :=
  t = { wall := 0, logical := 0 }

/-- Modelled from the spec: `hlc.Timestamp.Next` is the timestamp immediately
following `t` (the logical component is bumped; at the int32 limit the wall
time is bumped instead). -/
def Timestamp.next (t : Timestamp) : Timestamp :=
  if t.logical = 2147483647 then { wall := t.wall + 1, logical := 0 }
  else { wall := t.wall, logical := t.logical + 1 }

/-- A `roachpb.Span`: a half-open key range `[key, endKey)`; keys are
modelled as naturals. -/
structure Span where
  key : Nat
  endKey : Nat
deriving DecidableEq, Repr, Inhabited

/-- A key `k` lies inside the half-open span `s`. -/
def Span.contains (s : Span) (k : Nat) : Prop :=
  s.key ≤ k ∧ k < s.endKey

instance (s : Span) (k : Nat) : Decidable (s.contains k) := by
  unfold Span.contains; infer_instance

/-- A key is covered by the union of a list of spans. -/
def coveredBy (spans : List Span) (k : Nat) : Prop :=
  ∃ s ∈ spans, s.contains k

instance (spans : List Span) (k : Nat) : Decidable (coveredBy spans k) := by
  unfold coveredBy; infer_instance

/-- Modelled from the spec: `roachpb.SpanGroup.Encloses` — the span `s` is
fully enclosed by the union of the group's spans (the group merges spans on
`Add`, which leaves the covered key set unchanged). Propositional form. -/
def encloses (group : List Span) (s : Span) : Prop :=
  ∀ k, s.contains k → coveredBy group k

/-- Executable form of `encloses`: every key of the (finite) half-open range
is covered. -/
def enclosesB (group : List Span) (s : Span) : Bool :=
  (List.range' s.key (s.endKey - s.key)).all fun k => decide (coveredBy group k)

theorem enclosesB_iff (group : List Span) (s : Span) :
    enclosesB group s = true ↔ encloses group s := by
  unfold enclosesB encloses
  rw [List.all_eq_true]
  constructor
  · intro h k hk
    obtain ⟨hk1, hk2⟩ := hk
    have hmem : k ∈ List.range' s.key (s.endKey - s.key) := by
      rw [List.mem_range'_1]
      exact ⟨hk1, by omega⟩
    simpa using h k hmem
  · intro h k hk
    rw [List.mem_range'_1] at hk
    simp only [decide_eq_true_eq]
    exact h k ⟨hk.1, by omega⟩

instance (group : List Span) (s : Span) : Decidable (encloses group s) :=
  decidable_of_iff (enclosesB group s = true) (enclosesB_iff group s)

/-- A changefeed target specification (`jobspb.ChangefeedTargetSpecification`);
only its identity matters to the modelled code. -/
structure TargetSpecification where
  tableID : Nat
deriving DecidableEq, Repr, Inhabited

/-- The slice of `jobspb.ChangefeedDetails` the modelled code reads. -/
structure ChangefeedDetails where
  sinkURI : String
  select : String
  statementTime : Timestamp
  opts : List (String × String)
  targetSpecifications : List TargetSpecification
deriving DecidableEq, Repr

/-- `jobspb.ChangefeedProgress_Checkpoint`: finer-grained resumption state, a
set of spans already resolved past `timestamp`. -/
structure Checkpoint where
  spans : List Span
  timestamp : Timestamp
deriving DecidableEq, Repr

/-- `sql.SpanPartition`: a set of spans assigned to one SQL instance. -/
structure SpanPartition where
  sqlInstanceID : Nat
  spans : List Span
deriving DecidableEq, Repr

/-- `execinfrapb.ChangeAggregatorSpec_Watch`: one span together with the
timestamp change detection starts from. -/
structure Watch where
  span : Span
  initialResolved : Timestamp
deriving DecidableEq, Repr

/-- `execinfrapb.ChangeAggregatorSpec_Checkpoint` (same payload as the job
checkpoint). -/
structure AggregatorCheckpoint where
  spans : List Span
  timestamp : Timestamp
deriving DecidableEq, Repr

/-- `execinfrapb.ChangeAggregatorSpec`: the declarative task description for
one aggregator. -/
structure ChangeAggregatorSpec where
  watches : List Watch
  checkpoint : AggregatorCheckpoint
  feed : ChangefeedDetails
  userProto : String
  jobID : Nat
  selectExpr : String
deriving DecidableEq, Repr

/-- `execinfrapb.ChangeFrontierSpec`: the declarative task description for
the single frontier. -/
structure ChangeFrontierSpec where
  trackedSpans : List Span
  feed : ChangefeedDetails
  jobID : Nat
  userProto : String
deriving DecidableEq, Repr

/-- Errors surfaced by the modelled code. `invalidParameterValue` carries
`pgcode.InvalidParameterValue` (the spec's `InvalidRequest` taxon);
`contextCanceled` is `context.Canceled`; `external` stands for an error
returned by an external collaborator. -/
inductive GoError where
  | invalidParameterValue (message : String)
  | contextCanceled
  | external (message : String)
deriving DecidableEq, Repr

/-- A table descriptor as consumed by `fetchSpansForTables`: only its primary
index span is read. -/
structure TableDescriptor where
  primaryIndexSpan : Span
deriving DecidableEq, Repr, Inhabited

/-- `changefeedbase.OptVirtualColumns`. -/
def optVirtualColumns : String := "virtual_columns"

/-- `changefeedbase.OptVirtualColumnsNull`. -/
def optVirtualColumnsNull : String := "null"

/-- Go map lookup `details.Opts[k]` (missing key yields the empty string). -/
def lookupOpt (opts : List (String × String)) (k : String) : String :=
  match opts.find? fun p => p.1 = k with
  | some p => p.2
  | none => ""

/-- `fetchSpansForTables`: the set of spans for the target tables.  With no
`Select` clause it is one primary-index span per table; with a filter it is
delegated to `cdceval.ConstrainPrimaryIndexSpanByFilter` (external, passed as
`constrainPrimaryIndexSpanByFilter`) after rejecting multi-table targets. -/
def fetchSpansForTables
    (constrainPrimaryIndexSpanByFilter :
      String → TableDescriptor → TargetSpecification → Bool →
        Except GoError (List Span × String))
    (tableDescs : List TableDescriptor) (details : ChangefeedDetails) :
    Except GoError (List Span × String) :=
  if details.select = "" then
    .ok (tableDescs.map fun d => d.primaryIndexSpan, "")
  else if tableDescs.length ≠ 1 then
    .error (.invalidParameterValue
      ("filter can only be used with single target (found " ++
        toString tableDescs.length ++ ")"))
  else
    let target := details.targetSpecifications.getD 0 default
    let includeVirtual :=
      lookupOpt details.opts optVirtualColumns = optVirtualColumnsNull
    constrainPrimaryIndexSpanByFilter details.select (tableDescs.getD 0 default)
      target includeVirtual

/-- Setting classes of the `settings` package. -/
inductive SettingClass where
  | tenantWritable
  | tenantReadOnly
  | systemOnly
deriving DecidableEq, Repr

/-- A registered float cluster setting (`settings.RegisterFloatSetting`); the
Go `float64` default is carried exactly as a rational. -/
structure FloatSetting where
  settingClass : SettingClass
  key : String
  description : String
  defaultValue : Rat

/-- A registered duration cluster setting
(`settings.RegisterDurationSetting`); durations are nanosecond counts and
`validateDuration` is the registered validation option. -/
structure DurationSetting where
  settingClass : SettingClass
  key : String
  description : String
  defaultValue : Int
  validateDuration : Int → Bool

/-- Modelled from the spec: `settings.PositiveDuration` (package `settings`,
outside the given sources) accepts exactly the positive durations. -/
def positiveDuration (d : Int) : Bool :=
  decide (0 < d)

/-- `time.Minute` in nanoseconds. -/
def timeMinute : Int := 60 * 1000000000

/-- `replanChangefeedThreshold` (`changefeed.replan_flow_threshold`). -/
def replanChangefeedThreshold : FloatSetting where
  settingClass := .tenantWritable
  key := "changefeed.replan_flow_threshold"
  description := "fraction of initial flow instances that would be added or updated above which a redistribution would occur (0=disabled)"
  defaultValue := 0

/-- `replanChangefeedFrequency` (`changefeed.replan_flow_frequency`). -/
def replanChangefeedFrequency : DurationSetting where
  settingClass := .tenantWritable
  key := "changefeed.replan_flow_frequency"
  description := "frequency at which changefeed checks to see if redistributing would change its physical execution plan"
  defaultValue := 10 * timeMinute
  validateDuration := positiveDuration

/-- The span-partitioning step at the top of `makePlan`'s returned closure:
sinkless feeds get one partition on the gateway; other feeds are partitioned
by the (external) `dsp.PartitionSpans`. -/
def computeSpanPartitions (details : ChangefeedDetails) (gatewayID : Nat)
    (partitionSpans : List Span → Except GoError (List SpanPartition))
    (trackedSpans : List Span) : Except GoError (List SpanPartition) :=
  if details.sinkURI = "" then
    .ok [{ sqlInstanceID := gatewayID, spans := trackedSpans }]
  else
    partitionSpans trackedSpans

/-- The physical plan `makePlan` produces: one no-input aggregator stage (a
core placement per partition), a single frontier stage on one instance fed by
every aggregator (`AddSingleGroupStage`), and the output column map. -/
structure PhysicalPlan where
  aggregatorStages : List (Nat × ChangeAggregatorSpec)
  frontierStage : Nat × ChangeFrontierSpec
  frontierInputs : List Nat
  planToStreamColMap : List Int
deriving DecidableEq, Repr

/-- The body of `makePlan` after the partitions are known: builds the
aggregator specs (with per-watch initial resolved timestamps and the shared
checkpoint), the frontier spec over the full tracked span set, and the
two-stage plan. -/
def buildPlanFromPartitions (userProto : String) (jobID : Nat)
    (details : ChangefeedDetails) (initialHighWater : Timestamp)
    (checkpoint : Checkpoint) (trackedSpans : List Span)
    (selectClause : String) (gatewayID : Nat)
    (spanPartitions : List SpanPartition) : PhysicalPlan :=
  let aggregatorCheckpoint : AggregatorCheckpoint :=
    { spans := checkpoint.spans, timestamp := checkpoint.timestamp }
  let checkpointSpanGroup := checkpoint.spans
  let aggregatorSpecs := spanPartitions.map fun sp =>
    let watches := sp.spans.map fun nodeSpan =>
      let initialResolved :=
        if enclosesB checkpointSpanGroup nodeSpan then checkpoint.timestamp
        else initialHighWater
      ({ span := nodeSpan, initialResolved := initialResolved } : Watch)
    ({ watches := watches
       checkpoint := aggregatorCheckpoint
       feed := details
       userProto := userProto
       jobID := jobID
       selectExpr := selectClause } : ChangeAggregatorSpec)
  let changeFrontierSpec : ChangeFrontierSpec :=
    { trackedSpans := trackedSpans
      feed := details
      jobID := jobID
      userProto := userProto }
  let aggregatorCorePlacement :=
    (spanPartitions.zip aggregatorSpecs).map fun p => (p.1.sqlInstanceID, p.2)
  { aggregatorStages := aggregatorCorePlacement
    frontierStage := (gatewayID, changeFrontierSpec)
    frontierInputs := List.range aggregatorCorePlacement.length
    planToStreamColMap := [1, 2, 3] }

/-- `makePlan`'s returned planning closure (testing knobs, which are nil in
production, are omitted). -/
def makePlan (userProto : String) (jobID : Nat) (details : ChangefeedDetails)
    (initialHighWater : Timestamp) (checkpoint : Checkpoint)
    (trackedSpans : List Span) (selectClause : String) (gatewayID : Nat)
    (partitionSpans : List Span → Except GoError (List SpanPartition)) :
    Except GoError PhysicalPlan := do
  let spanPartitions ←
    computeSpanPartitions details gatewayID partitionSpans trackedSpans
  return buildPlanFromPartitions userProto jobID details initialHighWater
    checkpoint trackedSpans selectClause gatewayID spanPartitions

/-- `changefeedbase` initial-scan option values. -/
inductive InitialScanType where
  | initialScan
  | noInitialScan
  | onlyInitialScan
deriving DecidableEq, Repr

/-- `jobspb.ChangefeedProgress` as read by `distChangefeedFlow`: only the
optional checkpoint pointer. -/
structure ChangefeedProgress where
  checkpoint : Option Checkpoint
deriving DecidableEq, Repr

/-- `jobspb.Progress` as read by `distChangefeedFlow`: the optional
high-water pointer and the optional changefeed details payload. -/
structure JobProgress where
  highWater : Option Timestamp
  changefeed : Option ChangefeedProgress
deriving DecidableEq, Repr

/-- The code's `noHighWater` test: the high-water pointer is nil or the
timestamp it points to is empty. -/
def noHighWater (p : JobProgress) : Bool :=
  match p.highWater with
  | none => true
  | some h => h.isEmpty

/-- The first block of `distChangefeedFlow`: when there is no (nil or empty)
high-water and no initial scan is requested, the progress is initialized with
a high-water at the statement time. -/
def initProgress (details : ChangefeedDetails) (progress : JobProgress)
    (initialScanType : InitialScanType) : JobProgress :=
  if noHighWater progress && (initialScanType == .noInitialScan) then
    { progress with highWater := some details.statementTime }
  else
    progress

/-- The inputs `distChangefeedFlow` hands to `startDistChangefeed`. -/
structure FlowInit where
  schemaTS : Timestamp
  initialHighWater : Timestamp
  checkpoint : Checkpoint
deriving DecidableEq, Repr

/-- `distChangefeedFlow`'s computation of the schema timestamp, the initial
high-water and the checkpoint (option parsing is external: the parsed
`initialScanType` is an input). -/
def distChangefeedFlowInit (details : ChangefeedDetails)
    (progress : JobProgress) (initialScanType : InitialScanType) : FlowInit :=
  let progress := initProgress details progress initialScanType
  let initialHighWater : Timestamp := { wall := 0, logical := 0 }
  let schemaTS := details.statementTime
  let (initialHighWater, schemaTS) :=
    match progress.highWater with
    | some h => if ¬ h.isEmpty then (h, h) else (initialHighWater, schemaTS)
    | none => (initialHighWater, schemaTS)
  let isRestartAfterCheckpointOrNoInitialScan := progress.highWater ≠ none
  let schemaTS :=
    if isRestartAfterCheckpointOrNoInitialScan then schemaTS.next else schemaTS
  let checkpoint : Checkpoint :=
    match progress.changefeed with
    | some cf =>
      match cf.checkpoint with
      | some c => c
      | none => { spans := [], timestamp := { wall := 0, logical := 0 } }
    | none => { spans := [], timestamp := { wall := 0, logical := 0 } }
  { schemaTS := schemaTS
    initialHighWater := initialHighWater
    checkpoint := checkpoint }

/-- A SQL datum; its structure is irrelevant to the modelled code, which only
copies datums around, so it is modelled as an opaque value. -/
abbrev Datum := Nat

/-- A heap of slice backing stores, modelling Go slice aliasing: a
`tree.Datums` value is a handle (index) into the heap, and `append` to a nil
slice allocates a fresh backing store. -/
structure Heap where
  cells : List (List Datum)
deriving DecidableEq, Repr

/-- Read a slice's current contents. -/
def Heap.read (h : Heap) (id : Nat) : List Datum :=
  h.cells.getD id []

/-- Mutate a slice's backing store in place (the producer reusing its
buffer). -/
def Heap.write (h : Heap) (id : Nat) (contents : List Datum) : Heap :=
  { cells := h.cells.set id contents }

/-- `append(tree.Datums(nil), row...)`: allocate a fresh backing store
holding a copy of `id`'s current contents; returns the new heap and the
fresh handle. -/
def Heap.allocCopy (h : Heap) (id : Nat) : Heap × Nat :=
  ({ cells := h.cells ++ [h.read id] }, h.cells.length)

/-- Which arm of `AddRow`'s `select` fires first: the context's done channel
or the send on `w.rowsCh`. -/
inductive SelectOutcome where
  | ctxDone
  | chanSend
deriving DecidableEq, Repr

/-- `changefeedResultWriter.AddRow`: copy the row, then block in a `select`
until either the context is cancelled (return `ctx.Err()`, nothing handed to
the channel) or the consumption channel accepts the copy (return nil).  The
result is (returned error, handle handed to `rowsCh` if any, heap after the
call). -/
def addRow (h : Heap) (rowId : Nat) (outcome : SelectOutcome) :
    Except GoError Unit × Option Nat × Heap :=
  let copied := h.allocCopy rowId
  match outcome with
  | .ctxDone => (.error .contextCanceled, none, copied.1)
  | .chanSend => (.ok (), some copied.2, copied.1)

/-- Claim C10 as stated: (i) with no high-water mark and the no-initial-scan
option, the initial high-water is the statement time; (ii) whenever a
high-water mark is present in (initialized) progress, the schema timestamp
is that high-water's `next`; (iii) with no high-water mark present, the
schema timestamp is the statement time unmodified. -/
def schemaTSClaim : Prop :=
  ∀ (details : ChangefeedDetails) (progress : JobProgress)
    (initialScanType : InitialScanType),
    (noHighWater progress = true → initialScanType = .noInitialScan →
      (distChangefeedFlowInit details progress initialScanType).initialHighWater
        = details.statementTime)
    ∧ (∀ h, (initProgress details progress initialScanType).highWater = some h →
        h.isEmpty = false →
        (distChangefeedFlowInit details progress initialScanType).schemaTS
          = h.next)
    ∧ (noHighWater (initProgress details progress initialScanType) = true →
        (distChangefeedFlowInit details progress initialScanType).schemaTS
          = details.statementTime)

/-! ### Helper lemmas -/

theorem zip_map_self {α β : Type} (l : List α) (f : α → β) :
    l.zip (l.map f) = l.map fun a => (a, f a) := by
  induction l with
  | nil => rfl
  | cons a t ih => simp only [List.map_cons, List.zip_cons_cons, ih]

theorem makePlan_ok (u : String) (j : Nat) (d : ChangefeedDetails)
    (ihw : Timestamp) (cp : Checkpoint) (ts : List Span) (sc : String)
    (g : Nat) (ps : List Span → Except GoError (List SpanPartition))
    (p : PhysicalPlan) (h : makePlan u j d ihw cp ts sc g ps = .ok p) :
    ∃ parts, computeSpanPartitions d g ps ts = .ok parts ∧
      p = buildPlanFromPartitions u j d ihw cp ts sc g parts := by
  unfold makePlan at h
  cases hcp : computeSpanPartitions d g ps ts with
  | error e =>
    rw [hcp] at h
    simp [Bind.bind, Except.bind] at h
  | ok parts =>
    rw [hcp] at h
    simp only [Bind.bind, Except.bind, pure, Except.pure, Except.ok.injEq] at h
    exact ⟨parts, rfl, h.symm⟩

theorem buildPlan_aggregatorStages (u : String) (j : Nat)
    (d : ChangefeedDetails) (ihw : Timestamp) (cp : Checkpoint)
    (ts : List Span) (sc : String) (g : Nat) (parts : List SpanPartition) :
    (buildPlanFromPartitions u j d ihw cp ts sc g parts).aggregatorStages =
      parts.map fun sp =>
        (sp.sqlInstanceID,
          ({ watches := sp.spans.map fun nodeSpan =>
               { span := nodeSpan
                 initialResolved :=
                   if enclosesB cp.spans nodeSpan then cp.timestamp else ihw }
             checkpoint := { spans := cp.spans, timestamp := cp.timestamp }
             feed := d
             userProto := u
             jobID := j
             selectExpr := sc } : ChangeAggregatorSpec)) := by
  unfold buildPlanFromPartitions
  simp only [zip_map_self, List.map_map]
  rfl

/-! ### Claim theorems -/

/-- C2: with no external sink configured (empty sink URI) the partitioner
produces exactly one `SpanPartition`, on the gateway node, whose span list is
exactly the tracked span set in order. -/
theorem computeSpanPartitions_sinkless (d : ChangefeedDetails) (g : Nat)
    (ps : List Span → Except GoError (List SpanPartition)) (ts : List Span)
    (hsink : d.sinkURI = "") :
    computeSpanPartitions d g ps ts =
      .ok [{ sqlInstanceID := g, spans := ts }] := by
  simp [computeSpanPartitions, hsink]

/-- C2 witness: a concrete sinkless input yields the single gateway
partition. -/
theorem computeSpanPartitions_sinkless_witness :
    computeSpanPartitions
      { sinkURI := "", select := "", statementTime := { wall := 1, logical := 0 },
        opts := [], targetSpecifications := [] }
      7 (fun _ => .error (.external "unused")) [{ key := 0, endKey := 4 }] =
      .ok [{ sqlInstanceID := 7, spans := [{ key := 0, endKey := 4 }] }] :=
  computeSpanPartitions_sinkless _ _ _ _ rfl

/-- C6: the plan builder is deterministic and side-effect-free — it is a
pure function of its inputs, so two invocations on identical inputs return
structurally equal plans. -/
theorem makePlan_deterministic (u : String) (j : Nat) (d : ChangefeedDetails)
    (ihw : Timestamp) (cp : Checkpoint) (ts : List Span) (sc : String)
    (g : Nat) (ps : List Span → Except GoError (List SpanPartition)) :
    makePlan u j d ihw cp ts sc g ps = makePlan u j d ihw cp ts sc g ps :=
  rfl

/-- C7: `changefeedResultWriter.AddRow` has exactly two outcomes — the
context is cancelled and it returns the `Cancelled` error with nothing handed
to the consumption channel, or the channel accepts the (copied) row and it
returns no error. -/
theorem addRow_two_outcomes (h : Heap) (rowId : Nat)
    (outcome : SelectOutcome) :
    addRow h rowId outcome =
        (.error .contextCanceled, none, (h.allocCopy rowId).1) ∨
      addRow h rowId outcome =
        (.ok (), some (h.allocCopy rowId).2, (h.allocCopy rowId).1) := by
  cases outcome
  · exact Or.inl rfl
  · exact Or.inr rfl

/-- C1: every watch of every aggregator spec built by the plan builder gets
initial resolved timestamp `checkpoint.timestamp` when its span is fully
enclosed by the union of the checkpoint's spans, and the flow's
`initialHighWater` otherwise. -/
theorem makePlan_watch_initial_resolved (u : String) (j : Nat)
    (d : ChangefeedDetails) (ihw : Timestamp) (cp : Checkpoint)
    (ts : List Span) (sc : String) (g : Nat)
    (ps : List Span → Except GoError (List SpanPartition)) (p : PhysicalPlan)
    (stage : Nat × ChangeAggregatorSpec) (w : Watch)
    (hp : makePlan u j d ihw cp ts sc g ps = .ok p)
    (hstage : stage ∈ p.aggregatorStages) (hw : w ∈ stage.2.watches) :
    w.initialResolved =
      if encloses cp.spans w.span then cp.timestamp else ihw := by
  obtain ⟨parts, -, rfl⟩ := makePlan_ok u j d ihw cp ts sc g ps p hp
  rw [buildPlan_aggregatorStages, List.mem_map] at hstage
  obtain ⟨sp, -, rfl⟩ := hstage
  have hw' : w ∈ sp.spans.map fun nodeSpan =>
      ({ span := nodeSpan
         initialResolved :=
           if enclosesB cp.spans nodeSpan then cp.timestamp else ihw } : Watch) := hw
  rw [List.mem_map] at hw'
  obtain ⟨nodeSpan, -, rfl⟩ := hw'
  by_cases henc : enclosesB cp.spans nodeSpan = true
  · rw [if_pos henc, if_pos ((enclosesB_iff cp.spans nodeSpan).mp henc)]
  · rw [if_neg (by simpa using henc),
      if_neg fun hc => henc ((enclosesB_iff cp.spans nodeSpan).mpr hc)]

/-- C4: every aggregator spec built by the plan builder carries the flow's
checkpoint verbatim (same span list and timestamp), with no per-aggregator
slicing. -/
theorem makePlan_shared_checkpoint (u : String) (j : Nat)
    (d : ChangefeedDetails) (ihw : Timestamp) (cp : Checkpoint)
    (ts : List Span) (sc : String) (g : Nat)
    (ps : List Span → Except GoError (List SpanPartition)) (p : PhysicalPlan)
    (stage : Nat × ChangeAggregatorSpec)
    (hp : makePlan u j d ihw cp ts sc g ps = .ok p)
    (hstage : stage ∈ p.aggregatorStages) :
    stage.2.checkpoint = { spans := cp.spans, timestamp := cp.timestamp } := by
  obtain ⟨parts, -, rfl⟩ := makePlan_ok u j d ihw cp ts sc g ps p hp
  rw [buildPlan_aggregatorStages, List.mem_map] at hstage
  obtain ⟨sp, -, rfl⟩ := hstage
  rfl

/-- C5: the plan builder places exactly one frontier stage, on the gateway
node, whose tracked span set is the full original tracked span set, fed by
every aggregator stage. -/
theorem makePlan_single_frontier (u : String) (j : Nat)
    (d : ChangefeedDetails) (ihw : Timestamp) (cp : Checkpoint)
    (ts : List Span) (sc : String) (g : Nat)
    (ps : List Span → Except GoError (List SpanPartition)) (p : PhysicalPlan)
    (hp : makePlan u j d ihw cp ts sc g ps = .ok p) :
    p.frontierStage =
        (g, { trackedSpans := ts, feed := d, jobID := j, userProto := u }) ∧
      p.frontierInputs = List.range p.aggregatorStages.length := by
  obtain ⟨parts, -, rfl⟩ := makePlan_ok u j d ihw cp ts sc g ps p hp
  exact ⟨rfl, rfl⟩

/-- A concrete sinkless request used by the plan-builder witnesses. -/
def sampleDetails : ChangefeedDetails :=
  { sinkURI := "", select := "", statementTime := { wall := 1, logical := 0 },
    opts := [], targetSpecifications := [] }

/-- A concrete checkpoint covering the first tracked span only. -/
def sampleCheckpoint : Checkpoint :=
  { spans := [{ key := 0, endKey := 2 }]
    timestamp := { wall := 10, logical := 0 } }

/-- Two concrete tracked spans. -/
def sampleTrackedSpans : List Span :=
  [{ key := 0, endKey := 2 }, { key := 2, endKey := 4 }]

/-- A partitioner stub; never called on the sinkless path. -/
def samplePartitioner : List Span → Except GoError (List SpanPartition) :=
  fun _ => .error (.external "unreachable")

/-- The aggregator spec `makePlan` builds for the sample input. -/
def sampleAggSpec : ChangeAggregatorSpec :=
  { watches :=
      [{ span := { key := 0, endKey := 2 }
         initialResolved := { wall := 10, logical := 0 } },
       { span := { key := 2, endKey := 4 }
         initialResolved := { wall := 3, logical := 0 } }]
    checkpoint := { spans := [{ key := 0, endKey := 2 }]
                    timestamp := { wall := 10, logical := 0 } }
    feed := sampleDetails
    userProto := "root"
    jobID := 1
    selectExpr := "" }

/-- The physical plan `makePlan` builds for the sample input. -/
def samplePlan : PhysicalPlan :=
  { aggregatorStages := [(5, sampleAggSpec)]
    frontierStage :=
      (5, { trackedSpans := sampleTrackedSpans, feed := sampleDetails,
            jobID := 1, userProto := "root" })
    frontierInputs := [0]
    planToStreamColMap := [1, 2, 3] }

/-- C1 witness: on the sample input, the watch over the checkpoint-covered
span `[0, 2)` gets the checkpoint timestamp. -/
theorem makePlan_watch_initial_resolved_witness :
    ({ span := { key := 0, endKey := 2 }
       initialResolved := { wall := 10, logical := 0 } } : Watch).initialResolved =
      if encloses sampleCheckpoint.spans
          ({ span := { key := 0, endKey := 2 }
             initialResolved := { wall := 10, logical := 0 } } : Watch).span
      then sampleCheckpoint.timestamp else { wall := 3, logical := 0 } :=
  makePlan_watch_initial_resolved "root" 1 sampleDetails
    { wall := 3, logical := 0 } sampleCheckpoint sampleTrackedSpans "" 5
    samplePartitioner samplePlan (5, sampleAggSpec)
    { span := { key := 0, endKey := 2 }
      initialResolved := { wall := 10, logical := 0 } }
    (by rfl) (by decide) (by decide)

/-- C4 witness: on the sample input, the single aggregator spec carries the
checkpoint verbatim. -/
theorem makePlan_shared_checkpoint_witness :
    sampleAggSpec.checkpoint =
      { spans := sampleCheckpoint.spans
        timestamp := sampleCheckpoint.timestamp } :=
  makePlan_shared_checkpoint "root" 1 sampleDetails { wall := 3, logical := 0 }
    sampleCheckpoint sampleTrackedSpans "" 5 samplePartitioner samplePlan
    (5, sampleAggSpec) (by rfl) (by decide)

/-- C5 witness: on the sample input, the frontier stage sits on the gateway
over the full tracked span set and is fed by every aggregator stage. -/
theorem makePlan_single_frontier_witness :
    samplePlan.frontierStage =
        (5, { trackedSpans := sampleTrackedSpans, feed := sampleDetails,
              jobID := 1, userProto := "root" }) ∧
      samplePlan.frontierInputs =
        List.range samplePlan.aggregatorStages.length :=
  makePlan_single_frontier "root" 1 sampleDetails { wall := 3, logical := 0 }
    sampleCheckpoint sampleTrackedSpans "" 5 samplePartitioner samplePlan
    (by rfl)

/-- C9: the replan skew threshold defaults to 0 (disabled) and the replan
check frequency defaults to 10 minutes with a positive-duration validator. -/
theorem replan_settings_defaults :
    replanChangefeedThreshold.defaultValue = 0 ∧
      replanChangefeedFrequency.defaultValue = 10 * timeMinute ∧
      ∀ d : Int, replanChangefeedFrequency.validateDuration d = true ↔ 0 < d := by
  refine ⟨rfl, rfl, fun d => ?_⟩
  simp [replanChangefeedFrequency, positiveDuration]

/-- C3: span resolution rejects a row filter combined with more than one
target table with the `InvalidRequest` (`InvalidParameterValue`) error and
produces no spans, and with no filter succeeds with one primary-index span
per target table and an empty updated expression. -/
theorem fetchSpansForTables_filter_rejection
    (cpisf : String → TableDescriptor → TargetSpecification → Bool →
      Except GoError (List Span × String))
    (tableDescs : List TableDescriptor) (details : ChangefeedDetails) :
    (details.select ≠ "" → 1 < tableDescs.length →
      fetchSpansForTables cpisf tableDescs details =
        .error (.invalidParameterValue
          ("filter can only be used with single target (found " ++
            toString tableDescs.length ++ ")")))
    ∧ (details.select = "" →
      fetchSpansForTables cpisf tableDescs details =
        .ok (tableDescs.map fun d => d.primaryIndexSpan, "")) := by
  constructor
  · intro hsel hlen
    unfold fetchSpansForTables
    rw [if_neg hsel, if_pos (by omega)]
  · intro hsel
    unfold fetchSpansForTables
    rw [if_pos hsel]

/-- A filter stub standing for `cdceval.ConstrainPrimaryIndexSpanByFilter`;
never reached in the witness. -/
def sampleConstrain : String → TableDescriptor → TargetSpecification → Bool →
    Except GoError (List Span × String) :=
  fun _ _ _ _ => .error (.external "unreachable")

/-- A concrete request carrying a row filter. -/
def sampleFilterDetails : ChangefeedDetails :=
  { sinkURI := "kafka://x", select := "a > 1",
    statementTime := { wall := 1, logical := 0 }, opts := [],
    targetSpecifications := [{ tableID := 1 }, { tableID := 2 }] }

/-- C3 witness: two tables with a filter are rejected; two tables without a
filter yield their two primary-index spans. -/
theorem fetchSpansForTables_filter_rejection_witness :
    (fetchSpansForTables sampleConstrain
        [{ primaryIndexSpan := { key := 0, endKey := 2 } },
         { primaryIndexSpan := { key := 2, endKey := 4 } }]
        sampleFilterDetails =
      .error (.invalidParameterValue
        ("filter can only be used with single target (found " ++
          toString (2 : Nat) ++ ")")))
    ∧ (fetchSpansForTables sampleConstrain
        [{ primaryIndexSpan := { key := 0, endKey := 2 } },
         { primaryIndexSpan := { key := 2, endKey := 4 } }]
        sampleDetails =
      .ok ([{ key := 0, endKey := 2 }, { key := 2, endKey := 4 }], "")) :=
  ⟨(fetchSpansForTables_filter_rejection sampleConstrain
      [{ primaryIndexSpan := { key := 0, endKey := 2 } },
       { primaryIndexSpan := { key := 2, endKey := 4 } }]
      sampleFilterDetails).1 (by decide) (by decide),
   (fetchSpansForTables_filter_rejection sampleConstrain
      [{ primaryIndexSpan := { key := 0, endKey := 2 } },
       { primaryIndexSpan := { key := 2, endKey := 4 } }]
      sampleDetails).2 rfl⟩

theorem getD_concat_self {α : Type} (l : List α) (x d : α) :
    (l ++ [x]).getD l.length d = x := by
  rw [List.getD_eq_getElem?_getD, List.getElem?_concat_length]
  rfl

theorem set_append_of_lt {α : Type} (l₁ l₂ : List α) (i : Nat) (a : α)
    (h : i < l₁.length) : (l₁ ++ l₂).set i a = l₁.set i a ++ l₂ := by
  induction l₁ generalizing i with
  | nil => simp at h
  | cons b t ih =>
    cases i with
    | zero => rfl
    | succ n =>
      simp only [List.cons_append, List.set, List.append_eq]
      rw [ih n (by simpa using h)]

/-- C8: whenever `AddRow` hands a row to the consumption channel, that row is
a fresh copy equal element-wise to the input row at the time of the call, and
it stays equal after any later mutation of the producer's buffer. -/
theorem addRow_copies_row (h : Heap) (rowId : Nat) (outcome : SelectOutcome)
    (contents : List Datum) (c : Nat)
    (hvalid : rowId < h.cells.length)
    (hsent : (addRow h rowId outcome).2.1 = some c) :
    ((addRow h rowId outcome).2.2).read c = h.read rowId ∧
      (((addRow h rowId outcome).2.2).write rowId contents).read c =
        h.read rowId := by
  cases outcome with
  | ctxDone => exact absurd hsent (by simp [addRow])
  | chanSend =>
    have hc : c = h.cells.length := by
      simpa [addRow, Heap.allocCopy] using hsent.symm
    subst hc
    constructor
    · show ({ cells := h.cells ++ [h.read rowId] } : Heap).read h.cells.length
          = h.read rowId
      exact getD_concat_self h.cells (h.read rowId) []
    · show ((h.cells ++ [h.cells.getD rowId []]).set rowId contents).getD
          h.cells.length [] = h.cells.getD rowId []
      rw [set_append_of_lt h.cells [h.cells.getD rowId []] rowId contents
        hvalid]
      have hlen : (h.cells.set rowId contents).length = h.cells.length := by
        simp
      rw [← hlen]
      exact getD_concat_self (h.cells.set rowId contents)
        (h.cells.getD rowId []) []

/-- C8 witness: a one-slice heap; after the copy is handed over, overwriting
the producer's slice leaves the handed-over row unchanged. -/
theorem addRow_copies_row_witness :
    ((addRow { cells := [[1, 2]] } 0 .chanSend).2.2).read 1 = [1, 2] ∧
      (((addRow { cells := [[1, 2]] } 0 .chanSend).2.2).write 0 [9]).read 1 =
        [1, 2] :=
  addRow_copies_row { cells := [[1, 2]] } 0 .chanSend [9] 1 (by decide)
    (by decide)

theorem Timestamp.isEmpty_iff (t : Timestamp) :
    t.isEmpty = true ↔ t = { wall := 0, logical := 0 } := by
  simp [Timestamp.isEmpty]

/-- A concrete progress whose high-water pointer is non-nil but points at the
empty timestamp. -/
def emptyHighWaterProgress : JobProgress :=
  { highWater := some { wall := 0, logical := 0 }, changefeed := none }

/-- A concrete request with statement time (5, 0). -/
def sampleStatementDetails : ChangefeedDetails :=
  { sinkURI := "", select := "", statementTime := { wall := 5, logical := 0 },
    opts := [], targetSpecifications := [] }

/-- C10 counterexample: with a non-nil but empty high-water pointer and an
initial scan requested, no high-water mark is present, yet the schema
timestamp is `statementTime.next` (5, 1), not the statement time (5, 0)
unmodified. -/
theorem schemaTSClaim_counterexample : ¬ schemaTSClaim := fun hcl =>
  absurd
    ((hcl sampleStatementDetails emptyHighWaterProgress .initialScan).2.2
      (by decide))
    (by decide)

/-- C10 amended: (i) with no (nil or empty) high-water mark and the
no-initial-scan option, the initial high-water is the statement time;
(ii) whenever the initialized progress carries a non-nil high-water pointer,
the schema timestamp is `next` of that high-water if it is non-empty and
`next` of the statement time if it is empty; (iii) only when the pointer is
nil is the statement time used unmodified. -/
theorem distChangefeedFlowInit_schemaTS (details : ChangefeedDetails)
    (progress : JobProgress) (ist : InitialScanType) :
    (noHighWater progress = true → ist = .noInitialScan →
      (distChangefeedFlowInit details progress ist).initialHighWater =
        details.statementTime)
    ∧ (∀ h, (initProgress details progress ist).highWater = some h →
        (distChangefeedFlowInit details progress ist).schemaTS =
          (if h.isEmpty then details.statementTime else h).next)
    ∧ ((initProgress details progress ist).highWater = none →
        (distChangefeedFlowInit details progress ist).schemaTS =
          details.statementTime) := by
  refine ⟨?_, ?_, ?_⟩
  · intro hno hist
    subst hist
    have hinit : (initProgress details progress .noInitialScan).highWater =
        some details.statementTime := by
      unfold initProgress
      rw [hno]
      rfl
    by_cases hemp : details.statementTime.isEmpty = true
    · have hval : details.statementTime = { wall := 0, logical := 0 } :=
        (Timestamp.isEmpty_iff _).mp hemp
      simp only [distChangefeedFlowInit, hinit, hemp]
      simp [hval]
    · simp only [distChangefeedFlowInit, hinit]
      simp [hemp]
  · intro h hsome
    by_cases hemp : h.isEmpty = true
    · simp only [distChangefeedFlowInit, hsome, hemp]
      simp
    · simp only [distChangefeedFlowInit, hsome]
      simp [hemp]
  · intro hnone
    simp only [distChangefeedFlowInit, hnone]
    simp

/-- C10 amended witness: with no high-water and no initial scan requested,
the initial high-water is the statement time. -/
theorem distChangefeedFlowInit_schemaTS_witness :
    (distChangefeedFlowInit sampleStatementDetails
        { highWater := none, changefeed := none }
        .noInitialScan).initialHighWater =
      sampleStatementDetails.statementTime :=
  (distChangefeedFlowInit_schemaTS sampleStatementDetails
    { highWater := none, changefeed := none } .noInitialScan).1 (by decide)
    rfl

/-- C9 witness: the frequency validator accepts a concrete positive
duration. -/
theorem replan_settings_defaults_witness :
    replanChangefeedFrequency.validateDuration 5 = true ↔ (0 : Int) < 5 :=
  replan_settings_defaults.2.2 5

end ChangefeedDist
